import Mathlib

/-!
Shallow embedding of the lecture-processing backend (King-Hacks-2026).

The embedding covers:
* `src/utils/timecodes.ts` — `formatTimecode`, `formatTimeRange`;
* `src/services/generator.ts` — the stub LLM provider (`StubGenerator`) and
  `generateOutputs` with its fallback-to-stub error handling;
* `src/services/stt.ts` — `transcribeAudio` and its error wrapping;
* `src/services/tts.ts` — `generateTTSAudio` and its catch-all recovery;
* `src/services/jobs.ts` — the `JobRunner` pipeline (`processJob`) as a trace
  of persisted record updates, and the FIFO queue (`enqueue`/`processQueue`)
  as a small-step transition system over runner states.

Conventions: JavaScript numbers used as timestamps are embedded as rationals
(`ℚ`, exact arithmetic standing in for IEEE doubles on the small values in
play); machine effects (file reads, HTTP calls) are threaded explicitly as
`Except`/record-valued "world" parameters; dynamic objects whose fields are
conditionally assigned are embedded as structures of `Option` fields where
`none` means "field absent".
-/

set_option linter.unusedVariables false

deriving instance DecidableEq for Except

namespace KingHacks

/-! ## timecodes.ts -/

/-- JS `String.prototype.padStart(2, "0")`: left-pad to length two. -/
def padStart2 (s : String) : String :=
  String.mk (List.replicate (2 - s.length) '0') ++ s

/-- JS truncation toward zero (the rounding used by the `%` operator). -/
def jsTrunc (q : ℚ) : ℤ :=
  if 0 ≤ q then Rat.floor q else Rat.ceil q

/-- JS remainder `a % b` on numbers: `a - b * trunc (a / b)`. -/
def jsMod (a b : ℚ) : ℚ :=
  a - b * (jsTrunc (a / b) : ℚ)

/-- `formatTimecode` (timecodes.ts:4): seconds to `M:SS`
(`Math.floor(seconds / 60)` minutes, `Math.floor(seconds % 60)` seconds,
only the seconds are zero-padded). -/
def formatTimecode (seconds : ℚ) : String :=
  toString (Rat.floor (seconds / 60)) ++ ":" ++ padStart2 (toString (Rat.floor (jsMod seconds 60)))

/-- `formatTimeRange` (timecodes.ts:27): the citation `(M:SS–M:SS)`. -/
def formatTimeRange (start finish : ℚ) : String :=
  "(" ++ formatTimecode start ++ "–" ++ formatTimecode finish ++ ")"

/-! ## stt.ts data model -/

/-- One transcript segment (stt.ts `TranscriptSegment`). -/
structure TranscriptSegment where
  start : ℚ
  «end» : ℚ
  text : String
  speaker : Option String := none
  deriving DecidableEq, Repr

/-- A transcript (stt.ts `Transcript`). -/
structure Transcript where
  language : String
  segments : List TranscriptSegment
  deriving DecidableEq, Repr

/-! ## generator.ts data model -/

/-- `GenerationPrefs` (generator.ts:8). The string-literal union types are
embedded as plain strings. -/
structure GenerationPrefs where
  tone : Option String := none
  difficulty : Option String := none
  lengthMinutes : Option Nat := none
  focusTopics : Option (List String) := none
  deriving DecidableEq, Repr

/-- `GenerationOptions` (generator.ts:15). -/
structure GenerationOptions where
  notesShort : Bool
  notesDetailed : Bool
  flashcards : Bool
  quiz : Bool
  podcastScript : Bool
  prefs : Option GenerationPrefs := none
  deriving DecidableEq, Repr

/-- One flashcard object produced by `StubGenerator.generateFlashcards`. -/
structure Flashcard where
  id : Nat
  front : String
  back : String
  timestamp : String
  deriving DecidableEq, Repr

/-- The flashcards JSON document `{flashcards, total}`. -/
structure FlashcardsDoc where
  flashcards : List Flashcard
  total : Nat
  deriving DecidableEq, Repr

/-- One quiz question object produced by `StubGenerator.generateQuiz`
(the source field `type` is embedded as `qtype`). -/
structure QuizQuestion where
  qtype : String
  id : Nat
  question : String
  options : List String
  correct : Nat
  explanation : String
  deriving DecidableEq, Repr

/-- The quiz JSON document `{questions, total}`. -/
structure QuizDoc where
  questions : List QuizQuestion
  total : Nat
  deriving DecidableEq, Repr

/-- Result object of `LLMProvider.generateNotes` (generator.ts:24): a dynamic
object whose five fields are each present only when assigned; `none` embeds
an absent field. -/
structure GeneratedNotes where
  notesShort : Option String := none
  notesDetailed : Option String := none
  flashcards : Option FlashcardsDoc := none
  quiz : Option QuizDoc := none
  podcastScript : Option String := none
  deriving DecidableEq, Repr

namespace StubGenerator

/-- The bullet pushed for a segment by `generateShortNotes` (generator.ts:81),
or `none` when the trimmed text is empty and the segment is skipped. -/
def shortBullet (seg : TranscriptSegment) : Option String :=
  if seg.text.trim = "" then none
  else some ("- " ++ seg.text.trim ++ " " ++ formatTimeRange seg.start seg.«end»)

/-- `StubGenerator.generateShortNotes` (generator.ts:76): start from the
header line, push one bullet per segment with non-empty trimmed text, then
`join("\n")`. -/
def generateShortNotes (t : Transcript) : String :=
  let lines := t.segments.foldl
    (fun acc seg =>
      if seg.text.trim = "" then acc
      else acc ++ ["- " ++ seg.text.trim ++ " " ++ formatTimeRange seg.start seg.«end»])
    ["# Lecture Notes\n"]
  String.intercalate "\n" lines

/-- Chunks of ten segments, mirroring the loop
`for (i = 0; i < len; i += 10) slice(i, i + 10)` (generator.ts:96). -/
def chunks10 : List TranscriptSegment → List (List TranscriptSegment)
  | [] => []
  | a :: as => (a :: as).take 10 :: chunks10 ((a :: as).drop 10)
termination_by l => l.length
decreasing_by simpa using Nat.lt_succ_of_le (Nat.sub_le as.length 9)

/-- A placeholder segment standing in for out-of-range JS index access; the
chunks fed to it are never empty, so the default is never read. -/
def defaultSeg : TranscriptSegment := { start := 0, «end» := 0, text := "" }

/-- `StubGenerator.generateDetailedNotes` (generator.ts:88): header lines,
then per ten-segment section a section header with the section time range and
the non-empty segments with their ranges. -/
def generateDetailedNotes (t : Transcript) (prefs : Option GenerationPrefs) : String :=
  let header : List String :=
    [ "# Detailed Lecture Notes\n",
      "*Generated with " ++ (((prefs.bind GenerationPrefs.tone).getD "default")) ++ " tone*\n" ]
  let sections := (chunks10 t.segments).enum.foldl
    (fun acc (sec : Nat × List TranscriptSegment) =>
      let sect := sec.2
      let startTime := (sect.headD defaultSeg).start
      let endTime := (sect.getLastD defaultSeg).«end»
      let acc := acc ++
        ["\n## Section " ++ toString (sec.1 + 1) ++ " " ++ formatTimeRange startTime endTime ++ "\n"]
      sect.foldl
        (fun acc seg =>
          if seg.text.trim = "" then acc
          else acc ++ [seg.text.trim ++ " " ++ formatTimeRange seg.start seg.«end» ++ "\n"])
        acc)
    header
  String.intercalate "\n" sections

/-- `StubGenerator.generateFlashcards` (generator.ts:113): up to five cards
from the segments whose trimmed text is longer than twenty characters. -/
def generateFlashcards (t : Transcript) : FlashcardsDoc :=
  let segments := t.segments.filter (fun s => 20 < s.text.trim.length)
  let cards := (segments.take 5).enum.map
    (fun (p : Nat × TranscriptSegment) =>
      { id := p.1 + 1
        front := "Key Point " ++ toString (p.1 + 1)
        back := p.2.text.trim
        timestamp := formatTimeRange p.2.start p.2.«end» : Flashcard })
  { flashcards := cards, total := cards.length }

/-- `StubGenerator.generateQuiz` (generator.ts:130): up to three
multiple-choice questions from the segments whose trimmed text is longer than
thirty characters. -/
def generateQuiz (t : Transcript) : QuizDoc :=
  let segments := t.segments.filter (fun s => 30 < s.text.trim.length)
  let questions := (segments.take 3).enum.map
    (fun (p : Nat × TranscriptSegment) =>
      { id := p.1 + 1
        qtype := "multiple_choice"
        question := "Based on the lecture content around " ++
          formatTimeRange p.2.start p.2.«end» ++ ", what is the main point?"
        options :=
          [ p.2.text.trim.take 50 ++ "...",
            "Option B (placeholder)",
            "Option C (placeholder)",
            "Option D (placeholder)" ]
        correct := 0
        explanation := p.2.text.trim : QuizQuestion })
  { questions := questions, total := questions.length }

/-- `StubGenerator.generatePodcastScript` (generator.ts:153). -/
def generatePodcastScript (t : Transcript) (prefs : Option GenerationPrefs) : String :=
  let summary :=
    (String.intercalate " "
      ((t.segments.map (fun s => s.text.trim)).filter (fun x => 0 < x.length))).take 500
  String.intercalate "\n"
    [ "[INTRO MUSIC]",
      "",
      "Welcome to today\x27s lecture recap. This is a " ++
        ((prefs.bind GenerationPrefs.tone).getD "friendly") ++
        " summary of the key points covered.",
      "",
      "[MAIN CONTENT]",
      "",
      summary,
      "",
      "[OUTRO]",
      "",
      "That wraps up today\x27s recap. Thanks for listening, and see you next time!",
      "",
      "[OUTRO MUSIC]" ]

/-- `StubGenerator.generateNotes` (generator.ts:41): assign each result field
only when the corresponding request flag is set. -/
def generateNotes (t : Transcript) (options : GenerationOptions) : GeneratedNotes :=
  { notesShort := if options.notesShort then some (generateShortNotes t) else none
    notesDetailed := if options.notesDetailed then some (generateDetailedNotes t options.prefs) else none
    flashcards := if options.flashcards then some (generateFlashcards t) else none
    quiz := if options.quiz then some (generateQuiz t) else none
    podcastScript := if options.podcastScript then some (generatePodcastScript t options.prefs) else none }

end StubGenerator

/-! ## storage.ts path model

`safePath` resolves against the process working directory, so absolute paths
are environment-dependent; the resolved outputs directory
(`path.resolve(storagePaths.outputs)`) is threaded as an explicit `root`
parameter. The filesystem writes performed by the save helpers are effects
outside the model; each helper is embedded as the path value it returns. -/

/-- Replace each maximal run of characters satisfying `p` by the single
character `r` (the behaviour of `replace(/X+/g, r)`); `inRun` records whether
the previous character was part of a run. -/
def squashRuns (p : Char → Bool) (r : Char) : List Char → Bool → List Char
  | [], _ => []
  | c :: cs, inRun =>
    if p c then
      if inRun then squashRuns p r cs true else r :: squashRuns p r cs true
    else c :: squashRuns p r cs false

/-- `sanitizeCourseCode` (sanitize.ts): trim, replace characters outside
`[a-zA-Z0-9\s\-_]` by `_`, collapse whitespace runs to `_`, collapse `_` runs,
strip leading and trailing `_`. JS `\s` is embedded as `Char.isWhitespace`. -/
def sanitizeCourseCode (code : String) : String :=
  let step1 := (code.trim).data
  let step2 := step1.map (fun c =>
    if c.isAlphanum || c.isWhitespace || c = '-' || c = '_' then c else '_')
  let step3 := squashRuns Char.isWhitespace '_' step2 false
  let step4 := squashRuns (fun c => c = '_') '_' step3 false
  let step5 := ((step4.dropWhile (fun c => c = '_')).reverse.dropWhile (fun c => c = '_')).reverse
  String.mk step5

/-- `getOutputDir` (storage.ts:41): `safePath(storagePaths.outputs, safeCode,
lectureId.toString())`, with the resolved outputs directory as `root`. -/
def getOutputDir (root courseCode : String) (lectureId : Nat) : String :=
  root ++ "/" ++ sanitizeCourseCode courseCode ++ "/" ++ toString lectureId

/-- `saveTextFile` (storage.ts:49), embedded as the path it returns. -/
def saveTextFile (root courseCode : String) (lectureId : Nat) (filename : String) : String :=
  getOutputDir root courseCode lectureId ++ "/" ++ filename

/-- `saveJsonFile` (storage.ts:67), embedded as the path it returns. -/
def saveJsonFile (root courseCode : String) (lectureId : Nat) (filename : String) : String :=
  getOutputDir root courseCode lectureId ++ "/" ++ filename

/-- `saveBinaryFile` (storage.ts:85), embedded as the path it returns. -/
def saveBinaryFile (root courseCode : String) (lectureId : Nat) (filename : String) : String :=
  getOutputDir root courseCode lectureId ++ "/" ++ filename

/-! ## stt.ts: transcribeAudio -/

/-- The two artifact paths returned by `transcribeAudio`. -/
structure TranscriptPaths where
  transcriptJsonPath : String
  transcriptTextPath : String
  deriving DecidableEq, Repr

/-- External outcome of the active STT provider call
(`provider.transcribe(audioPath)`): a transcript, or a thrown error message. -/
structure STTWorld where
  providerResult : Except String Transcript
  deriving DecidableEq, Repr

/-- `transcribeAudio` (stt.ts:140): on provider success save the JSON and the
space-joined plain-text transcript and return both paths; any error in the
try block is rethrown wrapped as `STT transcription failed: <message>`. -/
def transcribeAudio (root courseCode : String) (lectureId : Nat) (audioPath : String)
    (world : STTWorld) : Except String TranscriptPaths :=
  match world.providerResult with
  | .error msg => .error ("STT transcription failed: " ++ msg)
  | .ok _transcript =>
    .ok { transcriptJsonPath := saveJsonFile root courseCode lectureId "transcript.json"
          transcriptTextPath := saveTextFile root courseCode lectureId "transcript.txt" }

/-! ## generator.ts: generateOutputs -/

/-- JS truthiness of an optional string field: present and non-empty. -/
def optTruthy : Option String → Bool
  | none => false
  | some s => s ≠ ""

/-- The artifact paths produced by `generateOutputs` (generator.ts:366);
`none` embeds a field left unset. -/
structure GenOutputs where
  notesShortMdPath : Option String := none
  notesDetailedMdPath : Option String := none
  flashcardsJsonPath : Option String := none
  quizJsonPath : Option String := none
  podcastScriptPath : Option String := none
  deriving DecidableEq, Repr

/-- `generateOutputs` (generator.ts:366). `transcript` is the parsed content
of `transcriptJsonPath`; `providerResult` is the outcome of invoking the
chosen provider (`provider.generateNotes`), which for the non-stub providers
is an external process. A thrown provider invocation is caught and the stub
generator is run in its place (generator.ts:382-391); each requested output
that is truthy is then saved and its path recorded. -/
def generateOutputs (root courseCode : String) (lectureId : Nat)
    (transcript : Transcript) (options : GenerationOptions)
    (providerResult : Except String GeneratedNotes) : GenOutputs :=
  let outputs := match providerResult with
    | .ok o => o
    | .error _ => StubGenerator.generateNotes transcript options
  { notesShortMdPath :=
      if optTruthy outputs.notesShort then
        some (saveTextFile root courseCode lectureId "notes_short.md")
      else none
    notesDetailedMdPath :=
      if optTruthy outputs.notesDetailed then
        some (saveTextFile root courseCode lectureId "notes_detailed.md")
      else none
    flashcardsJsonPath :=
      if outputs.flashcards.isSome then
        some (saveJsonFile root courseCode lectureId "flashcards.json")
      else none
    quizJsonPath :=
      if outputs.quiz.isSome then
        some (saveJsonFile root courseCode lectureId "quiz.json")
      else none
    podcastScriptPath :=
      if optTruthy outputs.podcastScript then
        some (saveTextFile root courseCode lectureId "podcast_script.txt")
      else none }

/-- A generator invocation performed by `generateOutputs`. -/
inductive GenCall
  | primary
  | fallbackStub
  deriving DecidableEq, Repr

/-- The sequence of generator invocations `generateOutputs` performs: the
chosen provider once, then — only if that invocation threw — the stub
fallback exactly once (generator.ts:382-391 has no loop and no retry). -/
def generateOutputsCalls (providerResult : Except String GeneratedNotes) : List GenCall :=
  match providerResult with
  | .ok _ => [.primary]
  | .error _ => [.primary, .fallbackStub]

/-! ## tts.ts: generateTTSAudio -/

/-- `TTSOptions` as constructed at the HTTP boundary (processing.ts:152):
the runtime object carries `enabled` alongside the fields declared in
tts.ts. -/
structure TTSOptions where
  enabled : Bool := true
  voiceId : Option String := none
  twoVoice : Bool := false
  deriving DecidableEq, Repr

/-- The ElevenLabs section of `config` (config.ts): both fields default to
the empty string when the environment variables are unset. -/
structure ElevenLabsConfig where
  apiKey : String
  voiceId : String
  deriving DecidableEq, Repr

/-- The parts of a `fetch` response read by `generateTTSAudio`. -/
structure FetchResponse where
  ok : Bool
  status : Nat
  bodyText : String
  deriving DecidableEq, Repr

/-- External effects of one `generateTTSAudio` run: the script-file read, the
HTTP call (`.error` embeds a network failure), and a possible thrown error
from `saveBinaryFile`. -/
structure TTSWorld where
  readScript : Except String String
  fetchResult : Except String FetchResponse
  saveError : Option String := none
  deriving DecidableEq, Repr

/-- The voice id used: `options.voiceId || config.elevenLabs.voiceId`
(tts.ts:25), with JS falsiness of `undefined` and `""`. -/
def resolvedVoiceId (options : TTSOptions) (cfg : ElevenLabsConfig) : String :=
  match options.voiceId with
  | some v => if v = "" then cfg.voiceId else v
  | none => cfg.voiceId

/-- The try block of `generateTTSAudio` (tts.ts:23-67): read the script,
require a voice id, call the provider, require a success response, save the
MP3 and return its path; every failure is a thrown error. -/
def ttsTryBlock (root courseCode : String) (lectureId : Nat)
    (options : TTSOptions) (cfg : ElevenLabsConfig) (world : TTSWorld) :
    Except String String :=
  match world.readScript with
  | .error e => .error e
  | .ok _script =>
    if resolvedVoiceId options cfg = "" then
      .error "ElevenLabs voice ID is required. Set ELEVENLABS_VOICE_ID in environment variables."
    else
      match world.fetchResult with
      | .error e => .error e
      | .ok resp =>
        if resp.ok = false then
          .error ("ElevenLabs API error: " ++ toString resp.status ++ " - " ++ resp.bodyText)
        else
          match world.saveError with
          | some e => .error e
          | none => .ok (saveBinaryFile root courseCode lectureId "podcast_audio.mp3")

/-- `generateTTSAudio` (tts.ts:12): `null` immediately when no API key is
configured; otherwise run the try block and catch every error as `null`
(tts.ts:68-72 — "Don't throw - TTS is optional"). -/
def generateTTSAudio (root courseCode : String) (lectureId : Nat) (scriptPath : String)
    (options : TTSOptions) (cfg : ElevenLabsConfig) (world : TTSWorld) : Option String :=
  if cfg.apiKey = "" then none
  else
    match ttsTryBlock root courseCode lectureId options cfg world with
    | .ok mp3Path => some mp3Path
    | .error _ => none

/-! ## jobs.ts: the processing pipeline as a trace of record updates -/

/-- `LectureStatus` (jobs.ts:8). -/
inductive LectureStatus
  | uploaded
  | transcribing
  | transcribed
  | generating
  | voiced
  | complete
  | failed
  deriving DecidableEq, Repr

/-- One `prisma.lecture.update` call: `status` is always written; every other
field is written only when present (`none` embeds a field absent from the
`data` object). `errorMessage` distinguishes "written as null" (`some none`)
from "not written" (`none`). `explicitUpdatedAt` records whether the `data`
object itself contained `updatedAt: new Date()` (true exactly for the writes
issued through `updateStatus`, jobs.ts:143-150). -/
structure UpdateData where
  status : LectureStatus
  errorMessage : Option (Option String) := none
  transcriptJsonPath : Option String := none
  transcriptTextPath : Option String := none
  notesShortMdPath : Option String := none
  notesDetailedMdPath : Option String := none
  flashcardsJsonPath : Option String := none
  quizJsonPath : Option String := none
  podcastScriptPath : Option String := none
  podcastAudioMp3Path : Option String := none
  explicitUpdatedAt : Bool := false
  deriving DecidableEq, Repr

/-- The write performed by `updateStatus(lectureId, status, errorMessage)`
(jobs.ts:138): status, errorMessage and an explicit `updatedAt`. -/
def updateStatusWrite (status : LectureStatus) (errorMessage : Option String) : UpdateData :=
  { status := status, errorMessage := some errorMessage, explicitUpdatedAt := true }

/-- The write at jobs.ts:72-79: status `transcribed` plus both transcript
paths (no explicit timestamp, no errorMessage field). -/
def transcribedWrite (p : TranscriptPaths) : UpdateData :=
  { status := .transcribed
    transcriptJsonPath := some p.transcriptJsonPath
    transcriptTextPath := some p.transcriptTextPath }

/-- The write at jobs.ts:90-96: status `voiced` plus the spread of whichever
output paths were produced. -/
def voicedWrite (o : GenOutputs) : UpdateData :=
  { status := .voiced
    notesShortMdPath := o.notesShortMdPath
    notesDetailedMdPath := o.notesDetailedMdPath
    flashcardsJsonPath := o.flashcardsJsonPath
    quizJsonPath := o.quizJsonPath
    podcastScriptPath := o.podcastScriptPath }

/-- The write at jobs.ts:109-115: status `complete` plus the narrated-audio
path. -/
def completeAudioWrite (mp3Path : String) : UpdateData :=
  { status := .complete, podcastAudioMp3Path := some mp3Path }

/-- A queued `ProcessingJob` (jobs.ts:17). -/
structure ProcessingJob where
  lectureId : Nat
  courseCode : String
  audioPath : String
  generateOptions : GenerationOptions
  ttsOptions : TTSOptions
  deriving DecidableEq, Repr

/-- Outcomes of the three awaited stage calls of one `processJob` run:
`transcription` is the result of `transcribeAudio`, `generation` of
`generateOutputs`, `synthesis` of `generateTTSAudio`; an `.error` embeds the
call throwing with that message. -/
structure StageOutcomes where
  transcription : Except String TranscriptPaths
  generation : Except String GenOutputs
  synthesis : Except String (Option String)
  deriving DecidableEq, Repr

/-- Result of one `processJob` run: the ordered record updates it persisted,
and whether the TTS catch branch (jobs.ts:120-124, with its non-fatal
`console.error`) was entered. -/
structure ProcessJobResult where
  updates : List UpdateData
  ttsCatchLogged : Bool
  deriving DecidableEq, Repr

/-- Stage 3 of `processJob` (jobs.ts:99-128): when a podcast script was
requested, TTS is enabled and a script path was produced, consult the
synthesis outcome — path ⇒ `complete` with the audio path; `null` ⇒ plain
`complete`; thrown ⇒ caught, logged, plain `complete`. Otherwise plain
`complete`. -/
def stage3 (job : ProcessingJob) (outputs : GenOutputs)
    (synthesis : Except String (Option String)) : UpdateData × Bool :=
  if job.generateOptions.podcastScript && job.ttsOptions.enabled
      && optTruthy outputs.podcastScriptPath then
    match synthesis with
    | .ok (some mp3Path) => (completeAudioWrite mp3Path, false)
    | .ok none => (updateStatusWrite .complete none, false)
    | .error _ => (updateStatusWrite .complete none, true)
  else (updateStatusWrite .complete none, false)

/-- `processJob` (jobs.ts:60): the pipeline as the ordered list of record
updates it persists. A transcription or generation error reaches the outer
catch (jobs.ts:129-132) and is written verbatim as the `failed` status. -/
def processJob (job : ProcessingJob) (eff : StageOutcomes) : ProcessJobResult :=
  match eff.transcription with
  | .error msg =>
    { updates := [updateStatusWrite .transcribing none, updateStatusWrite .failed (some msg)]
      ttsCatchLogged := false }
  | .ok paths =>
    match eff.generation with
    | .error msg =>
      { updates :=
          [ updateStatusWrite .transcribing none, transcribedWrite paths,
            updateStatusWrite .generating none, updateStatusWrite .failed (some msg) ]
        ttsCatchLogged := false }
    | .ok outputs =>
      let s3 := stage3 job outputs eff.synthesis
      { updates :=
          [ updateStatusWrite .transcribing none, transcribedWrite paths,
            updateStatusWrite .generating none, voicedWrite outputs, s3.1 ]
        ttsCatchLogged := s3.2 }

/-- The persisted status sequence of one run. -/
def statusTrace (job : ProcessingJob) (eff : StageOutcomes) : List LectureStatus :=
  (processJob job eff).updates.map UpdateData.status

/-! ## The lecture record store -/

/-- The persisted lecture record fields touched by the orchestrator.
`updatedAt` is a logical timestamp: the clock value of the latest write. -/
structure Lecture where
  status : LectureStatus := .uploaded
  errorMessage : Option String := none
  transcriptJsonPath : Option String := none
  transcriptTextPath : Option String := none
  notesShortMdPath : Option String := none
  notesDetailedMdPath : Option String := none
  flashcardsJsonPath : Option String := none
  quizJsonPath : Option String := none
  podcastScriptPath : Option String := none
  podcastAudioMp3Path : Option String := none
  updatedAt : Nat := 0
  deriving DecidableEq, Repr

/-- Modelled from the spec: the Prisma schema (`prisma/schema.prisma`) is part
of this repository but not under `src/`, so the column semantics of
`prisma.lecture.update` are taken from the spec — "every status write also
updates a last-modified timestamp, used by polling clients to detect
progress" — i.e. `Lecture.updatedAt` behaves as a Prisma `@updatedAt` column,
set to the write time by every update whether or not the `data` object
carries it explicitly. Every other column keeps its value unless the update
carries that field. -/
def applyUpdate (now : Nat) (l : Lecture) (u : UpdateData) : Lecture :=
  { status := u.status
    errorMessage := u.errorMessage.getD l.errorMessage
    transcriptJsonPath := u.transcriptJsonPath.or l.transcriptJsonPath
    transcriptTextPath := u.transcriptTextPath.or l.transcriptTextPath
    notesShortMdPath := u.notesShortMdPath.or l.notesShortMdPath
    notesDetailedMdPath := u.notesDetailedMdPath.or l.notesDetailedMdPath
    flashcardsJsonPath := u.flashcardsJsonPath.or l.flashcardsJsonPath
    quizJsonPath := u.quizJsonPath.or l.quizJsonPath
    podcastScriptPath := u.podcastScriptPath.or l.podcastScriptPath
    podcastAudioMp3Path := u.podcastAudioMp3Path.or l.podcastAudioMp3Path
    updatedAt := now }

/-- Apply a list of updates at consecutive clock values `t, t+1, …`. -/
def applyUpdates (l : Lecture) (t : Nat) : List UpdateData → Lecture
  | [] => l
  | u :: us => applyUpdates (applyUpdate t l u) (t + 1) us

/-! ## The JobRunner queue as a transition system

`enqueue` (jobs.ts:32) appends and synchronously calls `processQueue`;
`processQueue` (jobs.ts:40) returns at once when the `processing` guard is
set or the queue is empty, and otherwise sets the guard and drains jobs
strictly in order, clearing the guard when the queue empties. The suspension
points of a drain are the awaited calls inside `processJob`; an `enqueue`
from the event loop can interleave between any two of them. The state below
carries three history fields that record, without influencing the dynamics,
everything the claims observe: `drains` counts currently active drain loops,
`enqueued` the jobs ever enqueued in order, `done` the jobs whose run has
finished in order; `log` is the global sequence of persisted writes, each
tagged with the writing job's lecture id. A queued job is paired with the
stage outcomes its run will see. -/

/-- A job together with the outcomes its stage calls will produce. -/
abbrev QueuedJob := ProcessingJob × StageOutcomes

/-- The lecture id a queued job writes under. -/
def jobId (q : QueuedJob) : Nat := q.1.lectureId

/-- The updates the job's `processJob` run persists, in order. -/
def jobTrace (q : QueuedJob) : List UpdateData := (processJob q.1 q.2).updates

/-- The job's trace tagged with its lecture id. -/
def taggedTrace (q : QueuedJob) : List (Nat × UpdateData) :=
  (jobTrace q).map (fun u => (jobId q, u))

/-- The concatenated tagged traces of a list of finished jobs. -/
def doneLog (d : List QueuedJob) : List (Nat × UpdateData) :=
  (d.map taggedTrace).flatten

/-- State of the `JobRunner` singleton plus run history. `running` holds the
job currently inside `processJob` and the writes it has not yet issued. -/
structure RunnerState where
  queue : List QueuedJob
  running : Option (QueuedJob × List UpdateData)
  processing : Bool
  drains : Nat
  enqueued : List QueuedJob
  done : List QueuedJob
  log : List (Nat × UpdateData)

/-- The runner before any `enqueue`. -/
def initState : RunnerState :=
  { queue := [], running := none, processing := false, drains := 0,
    enqueued := [], done := [], log := [] }

/-- One atomic step of the runner. `enqueueIdle`: `enqueue` finds the guard
clear, so its synchronous `processQueue` call sets the guard, starts a drain
loop and shifts the first job. `enqueueBusy`: the guard is set, so
`processQueue` returns at once and the job only waits. `emit`: the running
job performs its next persisted write. `finishNext` / `finishIdle`: the
running job's `processJob` returned; the loop shifts the next job, or clears
the guard and ends the drain when the queue is empty. -/
inductive Step : RunnerState → RunnerState → Prop
  | enqueueIdle (s : RunnerState) (j h : QueuedJob) (rest : List QueuedJob)
      (hproc : s.processing = false)
      (hq : s.queue ++ [j] = h :: rest) :
      Step s { queue := rest, running := some (h, jobTrace h), processing := true, drains := s.drains + 1, enqueued := s.enqueued ++ [j], done := s.done, log := s.log }
  | enqueueBusy (s : RunnerState) (j : QueuedJob)
      (hproc : s.processing = true) :
      Step s { s with queue := s.queue ++ [j], enqueued := s.enqueued ++ [j] }
  | emit (s : RunnerState) (j : QueuedJob) (u : UpdateData) (rem : List UpdateData)
      (hrun : s.running = some (j, u :: rem)) :
      Step s { s with running := some (j, rem), log := s.log ++ [(jobId j, u)] }
  | finishNext (s : RunnerState) (j h : QueuedJob) (rest : List QueuedJob)
      (hrun : s.running = some (j, []))
      (hq : s.queue = h :: rest) :
      Step s { s with queue := rest, running := some (h, jobTrace h), done := s.done ++ [j] }
  | finishIdle (s : RunnerState) (j : QueuedJob)
      (hrun : s.running = some (j, []))
      (hq : s.queue = []) :
      Step s { s with running := none, processing := false, drains := s.drains - 1, done := s.done ++ [j] }

/-- States the runner can reach from start-up. -/
inductive Reachable : RunnerState → Prop
  | init : Reachable initState
  | step {s s' : RunnerState} : Reachable s → Step s s' → Reachable s'

/-- The inductive invariant of the runner: at most one drain loop is active
(`drains` matches the guard), an idle runner has an empty queue, the history
fields list every job exactly once in enqueue order, and the log is exactly
the finished jobs' traces in finish order followed by the emitted prefix of
the running job's trace. -/
def Inv (s : RunnerState) : Prop :=
  s.drains = (if s.processing then 1 else 0) ∧
  (s.processing = false → s.queue = []) ∧
  (s.running = none →
    s.processing = false ∧ s.enqueued = s.done ++ s.queue ∧ s.log = doneLog s.done) ∧
  (∀ j rem, s.running = some (j, rem) →
    s.processing = true ∧ s.enqueued = s.done ++ j :: s.queue ∧
      ∃ pre, pre ++ rem = jobTrace j ∧
        s.log = doneLog s.done ++ pre.map (fun u => (jobId j, u)))

/-! ## Concrete instances used by counterexamples and witnesses -/

/-- Number of bullet lines (lines starting `- `) of a rendered document. -/
def bulletLineCount (s : String) : Nat :=
  ((s.splitOn "\n").filter (fun l => l.startsWith "- ")).length

/-- The three-segment transcript of the spec scenario: texts `"a"`, `""`,
`"b"` with trivial start/end times. -/
def exTranscript : Transcript :=
  { language := "en"
    segments :=
      [ { start := 0, «end» := 1, text := "a" },
        { start := 1, «end» := 2, text := "" },
        { start := 2, «end» := 3, text := "b" } ] }

/-- Generation options requesting short notes only. -/
def exGenOpts : GenerationOptions :=
  { notesShort := true, notesDetailed := false, flashcards := false,
    quiz := false, podcastScript := false }

/-- Concrete transcript artifact paths. -/
def exPaths : TranscriptPaths :=
  { transcriptJsonPath := "/out/CS101/1/transcript.json"
    transcriptTextPath := "/out/CS101/1/transcript.txt" }

/-- A job that does not request synthesis. -/
def exJobNoTTS : ProcessingJob :=
  { lectureId := 1, courseCode := "CS101", audioPath := "/audio/1.mp3"
    generateOptions := exGenOpts
    ttsOptions := { enabled := false } }

/-- Stage outcomes of a fully successful run producing no documents. -/
def exEffOk : StageOutcomes :=
  { transcription := .ok exPaths, generation := .ok {}, synthesis := .ok none }

/-- Stage outcomes whose transcription stage throws `boom`. -/
def exEffFail : StageOutcomes :=
  { transcription := .error "boom", generation := .ok {}, synthesis := .ok none }

/-- Stage outcomes whose generation stage returned the fallback result of a
thrown provider. -/
def exEffFallback : StageOutcomes :=
  { transcription := .ok exPaths
    generation := .ok (generateOutputs "/out" "CS101" 1 exTranscript exGenOpts (.error "llm down"))
    synthesis := .ok none }

/-- Stage outcomes whose transcription outcome is that of `transcribeAudio`
over a provider that threw `boom`. -/
def exEffSttFail : StageOutcomes :=
  { transcription := transcribeAudio "/out" "CS101" 1 "/audio/1.mp3" { providerResult := .error "boom" }
    generation := .ok {}
    synthesis := .ok none }

/-- Queued job number one (failing transcription, a two-write trace). -/
def jobA : QueuedJob := (exJobNoTTS, exEffFail)

/-- Queued job number two, same shape as `jobA` under lecture id 2. -/
def jobB : QueuedJob := ({ exJobNoTTS with lectureId := 2 }, exEffFail)

/-- The runner state after: enqueue `jobA` while idle, emit its two writes,
finish its run, enqueue `jobB`, emit `jobB`'s first write. -/
def witnessState : RunnerState :=
  { queue := [], running := some (jobB, [updateStatusWrite .failed (some "boom")]),
    processing := true, drains := 1, enqueued := [jobA, jobB], done := [jobA],
    log := [ (1, updateStatusWrite .transcribing none),
             (1, updateStatusWrite .failed (some "boom")),
             (2, updateStatusWrite .transcribing none) ] }

/-! ## Helper lemmas -/

theorem doneLog_append (a b : List QueuedJob) :
    doneLog (a ++ b) = doneLog a ++ doneLog b := by
  simp [doneLog]

theorem doneLog_cons (q : QueuedJob) (d : List QueuedJob) :
    doneLog (q :: d) = taggedTrace q ++ doneLog d := by
  simp [doneLog]

theorem mem_doneLog_id (e : Nat × UpdateData) (d : List QueuedJob)
    (h : e ∈ doneLog d) : e.1 ∈ d.map jobId := by
  unfold doneLog at h
  rcases List.mem_flatten.mp h with ⟨l, hl, hel⟩
  rcases List.mem_map.mp hl with ⟨q, hq, rfl⟩
  rcases List.mem_map.mp hel with ⟨u, hu, rfl⟩
  exact List.mem_map.mpr ⟨q, hq, rfl⟩

theorem ids_disjoint (X Y : List QueuedJob) (hN : ((X ++ Y).map jobId).Nodup)
    (n : Nat) (hx : n ∈ X.map jobId) (hy : n ∈ Y.map jobId) : False := by
  rw [List.map_append] at hN
  exact List.disjoint_of_nodup_append hN hx hy

theorem done_split (done rest l1 l2 l3 : List QueuedJob) (A B : QueuedJob)
    (hE : l1 ++ A :: (l2 ++ B :: l3) = done ++ rest)
    (hN : ((done ++ rest).map jobId).Nodup)
    (hB : jobId B ∈ done.map jobId
          ∨ ∃ q queueRest, rest = q :: queueRest ∧ jobId q = jobId B) :
    ∃ d2, done = l1 ++ A :: d2 := by
  have hE' : (l1 ++ [A]) ++ (l2 ++ B :: l3) = done ++ rest := by
    simpa [List.append_assoc, List.cons_append] using hE
  rcases List.append_eq_append_iff.mp hE' with ⟨a2, hdone, hrest⟩ | ⟨c2, hXa, hrest⟩
  · exact ⟨a2, by simpa [List.append_assoc] using hdone⟩
  · rcases c2 with _ | ⟨c0, c2'⟩
    · exact ⟨[], by simpa using hXa.symm⟩
    · exfalso
      have hNX : (((l1 ++ [A]) ++ (l2 ++ B :: l3)).map jobId).Nodup := by
        rw [hE']; exact hN
      have hBY : jobId B ∈ (l2 ++ B :: l3).map jobId := by simp
      rcases hB with hBdone | ⟨q, queueRest, hq, hid⟩
      · have hsub : jobId B ∈ (l1 ++ [A]).map jobId := by
          rw [hXa, List.map_append]
          exact List.mem_append_left _ hBdone
        exact ids_disjoint _ _ hNX _ hsub hBY
      · have hform : rest = c0 :: (c2' ++ (l2 ++ B :: l3)) := hrest
        rw [hq] at hform
        injection hform with hq0 hrest2
        have hqX : jobId q ∈ (l1 ++ [A]).map jobId := by
          rw [hXa, List.map_append]
          refine List.mem_append_right _ ?_
          rw [hq0]
          simp
        rw [hid] at hqX
        exact ids_disjoint _ _ hNX _ hqX hBY

theorem fifo_from_inv (done rest : List QueuedJob) (tail : List (Nat × UpdateData))
    (A B : QueuedJob) (l1 l2 l3 : List QueuedJob)
    (hE : l1 ++ A :: (l2 ++ B :: l3) = done ++ rest)
    (hN : ((done ++ rest).map jobId).Nodup)
    (htail : ∀ e ∈ tail, e.1 ∈ rest.map jobId)
    (hB : jobId B ∈ done.map jobId
          ∨ ∃ q queueRest, rest = q :: queueRest ∧ jobId q = jobId B) :
    A ∈ done ∧ ∃ x y, doneLog done ++ tail = x ++ (taggedTrace A ++ y) ∧
      (∀ e ∈ x, e.1 ≠ jobId B) ∧ (∀ e ∈ y, e.1 ≠ jobId A) := by
  obtain ⟨d2, hdone⟩ := done_split done rest l1 l2 l3 A B hE hN hB
  subst hdone
  refine ⟨by simp, doneLog l1, doneLog d2 ++ tail, ?_, ?_, ?_⟩
  · rw [doneLog_append, doneLog_cons]
    simp [List.append_assoc]
  · intro e he hBe
    have hids := mem_doneLog_id e l1 he
    rw [hBe] at hids
    have hN2 : ((l1 ++ A :: (l2 ++ B :: l3)).map jobId).Nodup := by
      rw [hE]; exact hN
    have hBY : jobId B ∈ (A :: (l2 ++ B :: l3)).map jobId := by simp
    exact ids_disjoint _ _ hN2 _ hids hBY
  · intro e he hAe
    have hE3 : (l1 ++ [A]) ++ (d2 ++ rest) = (l1 ++ A :: d2) ++ rest := by
      simp [List.append_assoc]
    have hN3 : (((l1 ++ [A]) ++ (d2 ++ rest)).map jobId).Nodup := by
      rw [hE3]; exact hN
    have hAX : jobId A ∈ (l1 ++ [A]).map jobId := by simp
    have hidsY : e.1 ∈ (d2 ++ rest).map jobId := by
      rw [List.map_append]
      rcases List.mem_append.mp he with h | h
      · exact List.mem_append_left _ (mem_doneLog_id e d2 h)
      · exact List.mem_append_right _ (htail e h)
    rw [hAe] at hidsY
    exact ids_disjoint _ _ hN3 _ hAX hidsY

theorem inv_init : Inv initState := by
  refine ⟨rfl, fun _ => rfl, fun _ => ⟨rfl, rfl, rfl⟩, fun j rem hcon => ?_⟩
  exact Option.noConfusion hcon

theorem inv_step (s s' : RunnerState) (hstep : Step s s') (hInv : Inv s) : Inv s' := by
  obtain ⟨hd, hq0, hnone, hsome⟩ := hInv
  cases hstep with
  | enqueueIdle j h rest hproc hq =>
    have hqe : s.queue = [] := hq0 hproc
    rw [hqe] at hq
    simp only [List.nil_append, List.cons.injEq] at hq
    obtain ⟨rfl, hrest⟩ := hq
    obtain ⟨hpf, henq, hlog⟩ := hnone (by
      cases hrunning : s.running with
      | none => rfl
      | some p =>
        obtain ⟨pj, prem⟩ := p
        have := (hsome pj prem hrunning).1
        rw [hproc] at this
        exact absurd this (by decide))
    refine ⟨?_, ?_, ?_, ?_⟩
    · show s.drains + 1 = 1
      rw [hd, hproc]
      decide
    · intro hcon
      simp at hcon
    · intro hcon
      exact Option.noConfusion hcon
    · intro j' rem' hsome'
      rw [Option.some.injEq, Prod.mk.injEq] at hsome'
      obtain ⟨rfl, rfl⟩ := hsome'
      refine ⟨rfl, ?_, [], by simp, ?_⟩
      · show s.enqueued ++ [j] = s.done ++ j :: rest
        rw [henq, hqe, ← hrest]
        simp
      · simpa using hlog
  | enqueueBusy j hproc =>
    refine ⟨hd, ?_, ?_, ?_⟩
    · intro hcon
      rw [hproc] at hcon
      exact absurd hcon (by decide)
    · intro hrn
      have := (hnone hrn).1
      rw [hproc] at this
      exact absurd this (by decide)
    · intro j' rem' hrn
      obtain ⟨hp, henq, pre, hpre, hlog⟩ := hsome j' rem' hrn
      refine ⟨hp, ?_, pre, hpre, hlog⟩
      show s.enqueued ++ [j] = s.done ++ j' :: (s.queue ++ [j])
      rw [henq]
      simp
  | emit j u rem hrun =>
    obtain ⟨hp, henq, pre, hpre, hlog⟩ := hsome j (u :: rem) hrun
    refine ⟨hd, ?_, ?_, ?_⟩
    · intro hcon
      rw [hp] at hcon
      exact absurd hcon (by decide)
    · intro hcon
      exact Option.noConfusion hcon
    · intro j' rem' hsome'
      rw [Option.some.injEq, Prod.mk.injEq] at hsome'
      obtain ⟨rfl, rfl⟩ := hsome'
      refine ⟨hp, henq, pre ++ [u], ?_, ?_⟩
      · simpa [List.append_assoc] using hpre
      · show s.log ++ [(jobId j, u)]
          = doneLog s.done ++ (pre ++ [u]).map (fun u => (jobId j, u))
        rw [hlog, List.map_append]
        simp
  | finishNext j h rest hrun hq =>
    obtain ⟨hp, henq, pre, hpre, hlog⟩ := hsome j [] hrun
    have hpre' : pre = jobTrace j := by simpa using hpre
    refine ⟨hd, ?_, ?_, ?_⟩
    · intro hcon
      rw [hp] at hcon
      exact absurd hcon (by decide)
    · intro hcon
      exact Option.noConfusion hcon
    · intro j' rem' hsome'
      rw [Option.some.injEq, Prod.mk.injEq] at hsome'
      obtain ⟨rfl, rfl⟩ := hsome'
      refine ⟨hp, ?_, [], by simp, ?_⟩
      · show s.enqueued = (s.done ++ [j]) ++ h :: rest
        rw [henq, hq]
        simp
      · show s.log = doneLog (s.done ++ [j]) ++ ([].map (fun u => (jobId h, u)))
        rw [hlog, hpre', doneLog_append, doneLog_cons]
        simp [doneLog, taggedTrace]
  | finishIdle j hrun hq =>
    obtain ⟨hp, henq, pre, hpre, hlog⟩ := hsome j [] hrun
    have hpre' : pre = jobTrace j := by simpa using hpre
    refine ⟨?_, fun _ => hq, ?_, ?_⟩
    · show s.drains - 1 = 0
      rw [hd, hp]
      decide
    · intro _
      refine ⟨rfl, ?_, ?_⟩
      · show s.enqueued = (s.done ++ [j]) ++ s.queue
        rw [henq, hq]
        simp
      · show s.log = doneLog (s.done ++ [j])
        rw [hlog, hpre', doneLog_append, doneLog_cons]
        simp [doneLog, taggedTrace]
    · intro j' rem' hcon
      exact Option.noConfusion hcon

theorem reachable_inv (s : RunnerState) (hr : Reachable s) : Inv s := by
  induction hr with
  | init => exact inv_init
  | step hprev hstep ih => exact inv_step _ _ hstep ih

theorem shortNotes_foldl (segs : List TranscriptSegment) (init : List String) :
    segs.foldl
      (fun acc seg =>
        if seg.text.trim = "" then acc
        else acc ++ ["- " ++ seg.text.trim ++ " " ++ formatTimeRange seg.start seg.«end»])
      init
    = init ++ (segs.filter (fun s => !(s.text.trim = ""))).map
        (fun s => "- " ++ s.text.trim ++ " " ++ formatTimeRange s.start s.«end») := by
  induction segs generalizing init with
  | nil => simp
  | cons a as ih =>
    by_cases h : a.text.trim = "" <;>
      simp [h, ih, List.filter_cons, List.append_assoc]

theorem processJob_ok_updates (job : ProcessingJob) (eff : StageOutcomes)
    (p : TranscriptPaths) (o : GenOutputs)
    (h1 : eff.transcription = .ok p) (h2 : eff.generation = .ok o) :
    (processJob job eff).updates =
      [ updateStatusWrite .transcribing none, transcribedWrite p,
        updateStatusWrite .generating none, voicedWrite o,
        (stage3 job o eff.synthesis).1 ] := by
  unfold processJob
  rw [h1, h2]

theorem stage3_fst_status (job : ProcessingJob) (o : GenOutputs)
    (synth : Except String (Option String)) :
    ((stage3 job o synth).1).status = .complete := by
  unfold stage3
  split
  · cases synth with
    | ok v => cases v <;> rfl
    | error e => rfl
  · rfl

theorem stage3_not_success (job : ProcessingJob) (o : GenOutputs)
    (synth : Except String (Option String))
    (h : (job.generateOptions.podcastScript && job.ttsOptions.enabled
            && optTruthy o.podcastScriptPath) = false
         ∨ (synth = .ok none ∨ ∃ e, synth = .error e)) :
    (stage3 job o synth).1 = updateStatusWrite .complete none := by
  unfold stage3
  rcases h with h | h | ⟨e, h⟩
  · rw [if_neg (by simp [h])]
  · rw [h]
    split <;> rfl
  · rw [h]
    split <;> rfl

theorem statusTrace_ok (job : ProcessingJob) (eff : StageOutcomes)
    (p : TranscriptPaths) (o : GenOutputs)
    (h1 : eff.transcription = .ok p) (h2 : eff.generation = .ok o) :
    statusTrace job eff
      = [.transcribing, .transcribed, .generating, .voiced, .complete] := by
  unfold statusTrace
  rw [processJob_ok_updates job eff p o h1 h2]
  simp [updateStatusWrite, transcribedWrite, voicedWrite,
    stage3_fst_status job o eff.synthesis]

theorem applyUpdates_updatedAt (us : List UpdateData) (l : Lecture) (t : Nat)
    (h : us ≠ []) :
    (applyUpdates l t us).updatedAt = t + (us.length - 1) := by
  induction us generalizing l t with
  | nil => exact absurd rfl h
  | cons u rest ih =>
    cases rest with
    | nil => simp [applyUpdates, applyUpdate]
    | cons v vs =>
      rw [applyUpdates, ih (applyUpdate t l u) (t + 1) (by simp)]
      simp only [List.length_cons]
      omega

theorem applyUpdates_podcast_none (us : List UpdateData) (l : Lecture) (t : Nat)
    (h : ∀ u ∈ us, u.podcastAudioMp3Path = none) :
    (applyUpdates l t us).podcastAudioMp3Path = l.podcastAudioMp3Path := by
  induction us generalizing l t with
  | nil => rfl
  | cons u rest ih =>
    rw [applyUpdates, ih _ _ (fun v hv => h v (List.mem_cons_of_mem u hv))]
    simp [applyUpdate, h u (List.mem_cons_self u rest)]

theorem tts_none_of_failure (root courseCode : String) (lectureId : Nat)
    (scriptPath : String) (opts : TTSOptions) (cfg : ElevenLabsConfig)
    (world : TTSWorld)
    (h : cfg.apiKey = "" ∨ resolvedVoiceId opts cfg = ""
        ∨ (∃ e, world.readScript = .error e)
        ∨ (∃ e, world.fetchResult = .error e)
        ∨ (∃ resp, world.fetchResult = .ok resp ∧ resp.ok = false)) :
    generateTTSAudio root courseCode lectureId scriptPath opts cfg world = none := by
  have key : cfg.apiKey = "" ∨ ∃ e, ttsTryBlock root courseCode lectureId opts cfg world
      = .error e := by
    rcases h with h | h | ⟨e, he⟩ | ⟨e, he⟩ | ⟨resp, he, hok⟩
    · exact .inl h
    · refine .inr ?_
      unfold ttsTryBlock
      cases hrs : world.readScript with
      | error e2 => exact ⟨e2, rfl⟩
      | ok sc => rw [if_pos h]; exact ⟨_, rfl⟩
    · refine .inr ?_
      unfold ttsTryBlock
      rw [he]
      exact ⟨e, rfl⟩
    · refine .inr ?_
      unfold ttsTryBlock
      cases hrs : world.readScript with
      | error e2 => exact ⟨e2, rfl⟩
      | ok sc =>
        by_cases hv : resolvedVoiceId opts cfg = ""
        · rw [if_pos hv]; exact ⟨_, rfl⟩
        · rw [if_neg hv, he]; exact ⟨e, rfl⟩
    · refine .inr ?_
      unfold ttsTryBlock
      cases hrs : world.readScript with
      | error e2 => exact ⟨e2, rfl⟩
      | ok sc =>
        by_cases hv : resolvedVoiceId opts cfg = ""
        · rw [if_pos hv]; exact ⟨_, rfl⟩
        · rw [if_neg hv, he]
          refine ⟨"ElevenLabs API error: " ++ toString resp.status ++ " - " ++ resp.bodyText, ?_⟩
          simp [hok]
  unfold generateTTSAudio
  rcases key with h | ⟨e, he⟩
  · rw [if_pos h]
  · split
    · rfl
    · rw [he]

/-! ## Claim theorems -/

/-- C8. For every transcript, the stub generator's short notes are the header
line followed by exactly one bullet per segment whose trimmed text is
non-empty (empty-after-trim segments are skipped), joined by newlines; each
bullet is the trimmed text suffixed with the `(M:SS–M:SS)` citation built
from the segment's start and end; and the spec's three-segment scenario
(texts `"a"`, `""`, `"b"`) renders to exactly two bullet lines. -/
theorem stub_short_notes_bullets :
    (∀ t : Transcript,
      StubGenerator.generateShortNotes t =
        String.intercalate "\n"
          ("# Lecture Notes\n" ::
            (t.segments.filter (fun s => !(s.text.trim = ""))).map
              (fun s => "- " ++ s.text.trim ++ " " ++ formatTimeRange s.start s.«end»)) ∧
      ((t.segments.filter (fun s => !(s.text.trim = ""))).map
          (fun s => "- " ++ s.text.trim ++ " " ++ formatTimeRange s.start s.«end»)).length
        = (t.segments.filter (fun s => !(s.text.trim = ""))).length ∧
      (∀ b ∈ (t.segments.filter (fun s => !(s.text.trim = ""))).map
          (fun s => "- " ++ s.text.trim ++ " " ++ formatTimeRange s.start s.«end»),
        ∃ s, s ∈ t.segments ∧ s.text.trim ≠ "" ∧
          b = ("- " ++ s.text.trim ++ " ") ++ formatTimeRange s.start s.«end»)) ∧
    bulletLineCount (StubGenerator.generateShortNotes exTranscript) = 2 := by
  constructor
  · intro t
    refine ⟨?_, by simp, ?_⟩
    · unfold StubGenerator.generateShortNotes
      rw [shortNotes_foldl]
      rfl
    · intro b hb
      rcases List.mem_map.mp hb with ⟨s, hs, rfl⟩
      rcases List.mem_filter.mp hs with ⟨hmem, hne⟩
      exact ⟨s, hmem, by simpa using hne, by simp [String.append_assoc]⟩
  · with_unfolding_all decide

/-- C2. Failure of the chosen generation provider degrades to stub output:
the artifacts of `generateOutputs` under a thrown provider equal those under
a successful stub invocation on the same transcript and options, the stub is
invoked exactly once with no retries, and a job whose generation stage
returns that fallback result ends `complete`, never `failed`. -/
theorem generation_provider_fallback (root courseCode : String) (lectureId : Nat)
    (t : Transcript) (opts : GenerationOptions) (e : String)
    (job : ProcessingJob) (eff : StageOutcomes) (p : TranscriptPaths)
    (h1 : eff.transcription = .ok p)
    (h2 : eff.generation = .ok (generateOutputs root courseCode lectureId t opts (.error e))) :
    generateOutputs root courseCode lectureId t opts (.error e)
      = generateOutputs root courseCode lectureId t opts
          (.ok (StubGenerator.generateNotes t opts)) ∧
    generateOutputsCalls (.error e) = [.primary, .fallbackStub] ∧
    (generateOutputsCalls (.error e)).count .fallbackStub = 1 ∧
    statusTrace job eff = [.transcribing, .transcribed, .generating, .voiced, .complete] ∧
    LectureStatus.failed ∉ statusTrace job eff := by
  have htr := statusTrace_ok job eff p _ h1 h2
  exact ⟨rfl, rfl, rfl, htr, by rw [htr]; decide⟩

/-- C2 witness. -/
theorem generation_provider_fallback_witness :
    generateOutputs "/out" "CS101" 1 exTranscript exGenOpts (.error "llm down")
      = generateOutputs "/out" "CS101" 1 exTranscript exGenOpts
          (.ok (StubGenerator.generateNotes exTranscript exGenOpts)) ∧
    statusTrace exJobNoTTS exEffFallback
      = [.transcribing, .transcribed, .generating, .voiced, .complete] := by
  have h := generation_provider_fallback "/out" "CS101" 1 exTranscript exGenOpts "llm down"
    exJobNoTTS exEffFallback exPaths rfl rfl
  exact ⟨h.1, h.2.2.2.1⟩

/-- C1 counterexample: a concrete successful run that never attempts
synthesis persists `voiced` between `generating` and `complete`, so its
status sequence is not the four-element sequence the claim states. -/
theorem run_without_synthesis_writes_voiced :
    statusTrace exJobNoTTS exEffOk
      = [.transcribing, .transcribed, .generating, .voiced, .complete] ∧
    statusTrace exJobNoTTS exEffOk
      ≠ [.transcribing, .transcribed, .generating, .complete] ∧
    LectureStatus.voiced ∈ statusTrace exJobNoTTS exEffOk := by
  with_unfolding_all decide

/-- C1 amended. For every job whose single run succeeds without synthesis
(synthesis not requested, not enabled, no script produced, the adapter
returned null, or the synthesis call threw), the persisted status sequence is
exactly `transcribing, transcribed, generating, voiced, complete`: `voiced`
is written provisionally after generation and then overwritten, so the final
persisted status is `complete` and `voiced` is never the final value. -/
theorem statuses_without_synthesis (job : ProcessingJob) (eff : StageOutcomes)
    (p : TranscriptPaths) (o : GenOutputs)
    (h1 : eff.transcription = .ok p) (h2 : eff.generation = .ok o)
    (h3 : (job.generateOptions.podcastScript && job.ttsOptions.enabled
            && optTruthy o.podcastScriptPath) = false
          ∨ eff.synthesis = .ok none
          ∨ ∃ e, eff.synthesis = .error e) :
    statusTrace job eff = [.transcribing, .transcribed, .generating, .voiced, .complete] ∧
    (statusTrace job eff).getLast? = some .complete := by
  have htr := statusTrace_ok job eff p o h1 h2
  exact ⟨htr, by rw [htr]; rfl⟩

/-- C1 witness. -/
theorem statuses_without_synthesis_witness :
    statusTrace exJobNoTTS exEffOk
      = [.transcribing, .transcribed, .generating, .voiced, .complete] ∧
    (statusTrace exJobNoTTS exEffOk).getLast? = some .complete := by
  exact statuses_without_synthesis exJobNoTTS exEffOk exPaths {} rfl rfl (.inl rfl)

/-- C6. Whenever generation succeeds, the fourth persisted write — issued
immediately after generation and before the stage-3 synthesis decision,
whatever the synthesis options and outcome — sets status `voiced` together
with exactly the produced document paths; the value is provisional and the
run's final write sets `complete`. -/
theorem voiced_written_before_stage3 (job : ProcessingJob) (eff : StageOutcomes)
    (p : TranscriptPaths) (o : GenOutputs)
    (h1 : eff.transcription = .ok p) (h2 : eff.generation = .ok o) :
    (processJob job eff).updates =
      [ updateStatusWrite .transcribing none, transcribedWrite p,
        updateStatusWrite .generating none, voicedWrite o,
        (stage3 job o eff.synthesis).1 ] ∧
    (voicedWrite o).status = .voiced ∧
    (voicedWrite o).notesShortMdPath = o.notesShortMdPath ∧
    (voicedWrite o).notesDetailedMdPath = o.notesDetailedMdPath ∧
    (voicedWrite o).flashcardsJsonPath = o.flashcardsJsonPath ∧
    (voicedWrite o).quizJsonPath = o.quizJsonPath ∧
    (voicedWrite o).podcastScriptPath = o.podcastScriptPath ∧
    ((stage3 job o eff.synthesis).1).status = .complete := by
  exact ⟨processJob_ok_updates job eff p o h1 h2, rfl, rfl, rfl, rfl, rfl, rfl,
    stage3_fst_status job o eff.synthesis⟩

/-- C6 witness. -/
theorem voiced_written_before_stage3_witness :
    (processJob exJobNoTTS exEffOk).updates =
      [ updateStatusWrite .transcribing none, transcribedWrite exPaths,
        updateStatusWrite .generating none, voicedWrite {},
        (stage3 exJobNoTTS {} exEffOk.synthesis).1 ] ∧
    (voicedWrite ({} : GenOutputs)).status = .voiced := by
  have h := voiced_written_before_stage3 exJobNoTTS exEffOk exPaths {} rfl rfl
  exact ⟨h.1, h.2.1⟩

/-- C4. A transcription-provider failure is propagated by `transcribeAudio`
as a thrown wrapped error (never an empty transcript result), the run then
records status `failed`, and the propagated message is persisted verbatim and
non-empty in the record's error field. -/
theorem transcription_failure_marks_failed (root : String) (job : ProcessingJob)
    (eff : StageOutcomes) (world : STTWorld) (msg : String) (l0 : Lecture) (t0 : Nat)
    (hw : world.providerResult = .error msg)
    (heff : eff.transcription
      = transcribeAudio root job.courseCode job.lectureId job.audioPath world) :
    eff.transcription = .error ("STT transcription failed: " ++ msg) ∧
    (processJob job eff).updates =
      [ updateStatusWrite .transcribing none,
        updateStatusWrite .failed (some ("STT transcription failed: " ++ msg)) ] ∧
    ("STT transcription failed: " ++ msg) ≠ "" ∧
    (applyUpdates l0 t0 (processJob job eff).updates).status = .failed ∧
    (applyUpdates l0 t0 (processJob job eff).updates).errorMessage
      = some ("STT transcription failed: " ++ msg) := by
  have herr : eff.transcription = .error ("STT transcription failed: " ++ msg) := by
    rw [heff]; unfold transcribeAudio; rw [hw]
  have hupd : (processJob job eff).updates =
      [ updateStatusWrite .transcribing none,
        updateStatusWrite .failed (some ("STT transcription failed: " ++ msg)) ] := by
    unfold processJob; rw [herr]
  refine ⟨herr, hupd, ?_, ?_, ?_⟩
  · intro hcon
    have hlen := congrArg String.length hcon
    rw [String.length_append] at hlen
    have hpos : (0 : Nat) < ("STT transcription failed: " : String).length := by decide
    have hz : ("" : String).length = 0 := by decide
    omega
  · rw [hupd]; rfl
  · rw [hupd]; rfl

/-- C4 witness. -/
theorem transcription_failure_marks_failed_witness :
    (processJob exJobNoTTS exEffSttFail).updates =
      [ updateStatusWrite .transcribing none,
        updateStatusWrite .failed (some ("STT transcription failed: " ++ "boom")) ] ∧
    ("STT transcription failed: " ++ "boom") ≠ "" := by
  have h := transcription_failure_marks_failed "/out" exJobNoTTS exEffSttFail
    { providerResult := .error "boom" } "boom" {} 0 rfl rfl
  exact ⟨h.2.1, h.2.2.1⟩

/-- C7. Every record write the orchestrator performs bumps the record's
last-modified timestamp to the write time — after the `(i+1)`-st write of any
run the record's `updatedAt` is exactly `t0 + i` — including the inline
writes (`transcribed` with transcript paths, `voiced` with document paths,
`complete` with the audio path) that do not go through `updateStatus` and do
not carry `updatedAt` in their `data` object. -/
theorem every_write_bumps_updatedAt (job : ProcessingJob) (eff : StageOutcomes)
    (l0 : Lecture) (t0 : Nat) (i : Nat)
    (h : i < (processJob job eff).updates.length) :
    (applyUpdates l0 t0 ((processJob job eff).updates.take (i + 1))).updatedAt = t0 + i ∧
    (transcribedWrite exPaths).explicitUpdatedAt = false ∧
    (voicedWrite {}).explicitUpdatedAt = false ∧
    (completeAudioWrite "p").explicitUpdatedAt = false := by
  refine ⟨?_, rfl, rfl, rfl⟩
  have hne : (processJob job eff).updates.take (i + 1) ≠ [] := by
    have : 0 < ((processJob job eff).updates.take (i + 1)).length := by
      rw [List.length_take]
      omega
    intro hcon
    rw [hcon] at this
    simp at this
  rw [applyUpdates_updatedAt _ _ _ hne, List.length_take]
  omega

/-- C7 witness. -/
theorem every_write_bumps_updatedAt_witness :
    (applyUpdates {} 5 ((processJob exJobNoTTS exEffOk).updates.take (2 + 1))).updatedAt
      = 5 + 2 := by
  exact (every_write_bumps_updatedAt exJobNoTTS exEffOk {} 5 2
    (by with_unfolding_all decide)).1

/-- C3. A synthesis-stage failure or missing synthesis configuration never
fails a job: the adapter converts a missing credential, a missing voice id,
an unreadable script, a network failure and a non-success response into "no
artifact produced" (`none`) instead of propagating an error; the run ends
`complete`, writes no narrated-audio path, and records no error message. -/
theorem synthesis_failure_still_complete (job : ProcessingJob) (eff : StageOutcomes)
    (p : TranscriptPaths) (o : GenOutputs) (l0 : Lecture) (t0 : Nat)
    (h1 : eff.transcription = .ok p) (h2 : eff.generation = .ok o)
    (h3 : eff.synthesis = .ok none ∨ ∃ e, eff.synthesis = .error e) :
    statusTrace job eff = [.transcribing, .transcribed, .generating, .voiced, .complete] ∧
    (∀ u ∈ (processJob job eff).updates, u.podcastAudioMp3Path = none) ∧
    (applyUpdates l0 t0 (processJob job eff).updates).status = .complete ∧
    (applyUpdates l0 t0 (processJob job eff).updates).errorMessage = none ∧
    (applyUpdates l0 t0 (processJob job eff).updates).podcastAudioMp3Path
      = l0.podcastAudioMp3Path ∧
    (∀ (root courseCode : String) (lectureId : Nat) (scriptPath : String)
        (opts : TTSOptions) (cfg : ElevenLabsConfig) (world : TTSWorld),
      (cfg.apiKey = "" ∨ resolvedVoiceId opts cfg = ""
        ∨ (∃ e, world.readScript = .error e)
        ∨ (∃ e, world.fetchResult = .error e)
        ∨ (∃ resp, world.fetchResult = .ok resp ∧ resp.ok = false)) →
      generateTTSAudio root courseCode lectureId scriptPath opts cfg world = none) := by
  have hs3 : (stage3 job o eff.synthesis).1 = updateStatusWrite .complete none :=
    stage3_not_success job o eff.synthesis (.inr h3)
  have hupd := processJob_ok_updates job eff p o h1 h2
  rw [hs3] at hupd
  refine ⟨?_, ?_, ?_, ?_, ?_, ?_⟩
  · unfold statusTrace
    rw [hupd]
    rfl
  · intro u hu
    rw [hupd] at hu
    simp only [List.mem_cons, List.not_mem_nil, or_false] at hu
    rcases hu with rfl | rfl | rfl | rfl | rfl <;> rfl
  · rw [hupd]; rfl
  · rw [hupd]; rfl
  · rw [hupd]
    apply applyUpdates_podcast_none
    intro u hu
    simp only [List.mem_cons, List.not_mem_nil, or_false] at hu
    rcases hu with rfl | rfl | rfl | rfl | rfl <;> rfl
  · intro root courseCode lectureId scriptPath opts cfg world hcase
    exact tts_none_of_failure root courseCode lectureId scriptPath opts cfg world hcase

/-- C3 witness. -/
theorem synthesis_failure_still_complete_witness :
    statusTrace exJobNoTTS exEffOk
      = [.transcribing, .transcribed, .generating, .voiced, .complete] ∧
    (applyUpdates {} 0 (processJob exJobNoTTS exEffOk).updates).status = .complete ∧
    (applyUpdates {} 0 (processJob exJobNoTTS exEffOk).updates).errorMessage = none := by
  have h := synthesis_failure_still_complete exJobNoTTS exEffOk exPaths {} {} 0
    rfl rfl (.inl rfl)
  exact ⟨h.1, h.2.2.1, h.2.2.2.1⟩

/-- C10. `generateTTSAudio` always terminates with a path or `null` and never
throws: a missing API key yields `null` for every possible world (before any
provider contact), every error raised inside the try block — unreadable
script, missing voice id, network failure, non-success response — is caught
and converted to `null`, and consequently the orchestrator's catch branch
around the synthesis call never runs when the synthesis outcome is a
returned value. -/
theorem tts_total_catch_unreachable (root courseCode : String) (lectureId : Nat)
    (scriptPath : String) (opts : TTSOptions) (cfg : ElevenLabsConfig)
    (world : TTSWorld) (r : Option String) :
    (generateTTSAudio root courseCode lectureId scriptPath opts cfg world = none
      ∨ ∃ mp3, generateTTSAudio root courseCode lectureId scriptPath opts cfg world
          = some mp3) ∧
    (cfg.apiKey = "" →
      generateTTSAudio root courseCode lectureId scriptPath opts cfg world = none) ∧
    (∀ e, ttsTryBlock root courseCode lectureId opts cfg world = .error e →
      generateTTSAudio root courseCode lectureId scriptPath opts cfg world = none) ∧
    ((cfg.apiKey = "" ∨ resolvedVoiceId opts cfg = ""
        ∨ (∃ e, world.readScript = .error e)
        ∨ (∃ e, world.fetchResult = .error e)
        ∨ (∃ resp, world.fetchResult = .ok resp ∧ resp.ok = false)) →
      generateTTSAudio root courseCode lectureId scriptPath opts cfg world = none) ∧
    (∀ (job : ProcessingJob) (eff : StageOutcomes),
      eff.synthesis = .ok r → (processJob job eff).ttsCatchLogged = false) := by
  refine ⟨?_, ?_, ?_, ?_, ?_⟩
  · cases h : generateTTSAudio root courseCode lectureId scriptPath opts cfg world with
    | none => exact .inl rfl
    | some mp3 => exact .inr ⟨mp3, rfl⟩
  · intro h
    unfold generateTTSAudio
    rw [if_pos h]
  · intro e he
    unfold generateTTSAudio
    split
    · rfl
    · rw [he]
  · exact tts_none_of_failure root courseCode lectureId scriptPath opts cfg world
  · intro job eff hsyn
    unfold processJob
    cases eff.transcription with
    | error msg => rfl
    | ok paths =>
      cases eff.generation with
      | error msg => rfl
      | ok outputs =>
        simp only []
        unfold stage3
        rw [hsyn]
        split
        · cases r <;> rfl
        · rfl

/-- C10 witness. -/
theorem tts_total_catch_unreachable_witness :
    generateTTSAudio "/out" "CS101" 1 "/out/s.txt" {} { apiKey := "", voiceId := "" }
      { readScript := .ok "hello", fetchResult := .ok { ok := true, status := 200, bodyText := "" } }
      = none ∧
    (processJob exJobNoTTS exEffOk).ttsCatchLogged = false := by
  have h := tts_total_catch_unreachable "/out" "CS101" 1 "/out/s.txt" {}
    { apiKey := "", voiceId := "" }
    { readScript := .ok "hello", fetchResult := .ok { ok := true, status := 200, bodyText := "" } }
    none
  exact ⟨h.2.1 rfl, h.2.2.2.2 exJobNoTTS exEffOk rfl⟩

/-- C8 witness. -/
theorem stub_short_notes_bullets_witness :
    bulletLineCount (StubGenerator.generateShortNotes exTranscript) = 2 ∧
    (∃ s, s ∈ exTranscript.segments ∧ s.text.trim ≠ "" ∧
      "- a (0:00–0:01)"
        = ("- " ++ s.text.trim ++ " ") ++ formatTimeRange s.start s.«end») := by
  refine ⟨stub_short_notes_bullets.2, ?_⟩
  exact (stub_short_notes_bullets.1 exTranscript).2.2 "- a (0:00–0:01)"
    (by with_unfolding_all decide)

/-- C9. For every transcript and every set of generation options, the stub
generator's result carries each of the five fields exactly when the
corresponding request flag is set; unrequested fields are absent rather than
placeholders. -/
theorem stub_fields_iff_flags (t : Transcript) (o : GenerationOptions) :
    ((StubGenerator.generateNotes t o).notesShort.isSome = o.notesShort) ∧
    ((StubGenerator.generateNotes t o).notesDetailed.isSome = o.notesDetailed) ∧
    ((StubGenerator.generateNotes t o).flashcards.isSome = o.flashcards) ∧
    ((StubGenerator.generateNotes t o).quiz.isSome = o.quiz) ∧
    ((StubGenerator.generateNotes t o).podcastScript.isSome = o.podcastScript) := by
  obtain ⟨ns, nd, fc, qz, ps, pf⟩ := o
  cases ns <;> cases nd <;> cases fc <;> cases qz <;> cases ps <;>
    simp [StubGenerator.generateNotes]

/-- C5. In every reachable runner state at most one drain loop is active
(`drains ≤ 1`: an `enqueue` during a drain only appends, the `processing`
guard prevents a second drain), and processing is strictly FIFO one job at a
time: whenever job `A` was enqueued before job `B` (with pairwise-distinct
lecture ids, deduplication being the caller's duty) and `B` has persisted any
write, `A`'s run has fully finished — `A` is in the finished-jobs history and
its complete write trace sits in the log strictly before every write of
`B`. -/
theorem fifo_single_drain (s : RunnerState) (hr : Reachable s) :
    s.drains ≤ 1 ∧
    ∀ (A B : QueuedJob) (l1 l2 l3 : List QueuedJob),
      s.enqueued = l1 ++ A :: (l2 ++ B :: l3) →
      (s.enqueued.map jobId).Nodup →
      (∃ e ∈ s.log, e.1 = jobId B) →
      A ∈ s.done ∧
      ∃ x y, s.log = x ++ (taggedTrace A ++ y) ∧
        (∀ e ∈ x, e.1 ≠ jobId B) ∧ (∀ e ∈ y, e.1 ≠ jobId A) := by
  obtain ⟨hd, hq0, hnone, hsome⟩ := reachable_inv s hr
  constructor
  · rw [hd]
    split <;> omega
  intro A B l1 l2 l3 hE hN hBlog
  cases hrunning : s.running with
  | none =>
    obtain ⟨hp, henq, hlog⟩ := hnone hrunning
    obtain ⟨e, helog, hBe⟩ := hBlog
    rw [hlog] at helog
    have hBid : jobId B ∈ s.done.map jobId := hBe ▸ mem_doneLog_id e s.done helog
    have hEq : l1 ++ A :: (l2 ++ B :: l3) = s.done ++ s.queue := by
      rw [← hE, henq]
    have hN' : ((s.done ++ s.queue).map jobId).Nodup := by
      rw [henq] at hN
      exact hN
    obtain ⟨hAdone, x, y, hsplit, hx, hy⟩ :=
      fifo_from_inv s.done s.queue [] A B l1 l2 l3 hEq hN' (by simp) (.inl hBid)
    refine ⟨hAdone, x, y, ?_, hx, hy⟩
    rw [hlog]
    simpa using hsplit
  | some p =>
    obtain ⟨j, rem⟩ := p
    obtain ⟨hp, henq, pre, hpre, hlog⟩ := hsome j rem hrunning
    obtain ⟨e, helog, hBe⟩ := hBlog
    rw [hlog] at helog
    have hB : jobId B ∈ s.done.map jobId
        ∨ ∃ q queueRest, (j :: s.queue) = q :: queueRest ∧ jobId q = jobId B := by
      rcases List.mem_append.mp helog with h | h
      · exact .inl (hBe ▸ mem_doneLog_id e s.done h)
      · right
        rcases List.mem_map.mp h with ⟨u, hu, rfl⟩
        exact ⟨j, s.queue, rfl, hBe⟩
    have hEq : l1 ++ A :: (l2 ++ B :: l3) = s.done ++ (j :: s.queue) := by
      rw [← hE, henq]
    have hN' : ((s.done ++ (j :: s.queue)).map jobId).Nodup := by
      rw [henq] at hN
      exact hN
    have htail : ∀ e ∈ pre.map (fun u => (jobId j, u)),
        e.1 ∈ (j :: s.queue).map jobId := by
      intro e he
      rcases List.mem_map.mp he with ⟨u, hu, rfl⟩
      simp
    obtain ⟨hAdone, x, y, hsplit, hx, hy⟩ :=
      fifo_from_inv s.done (j :: s.queue) (pre.map (fun u => (jobId j, u)))
        A B l1 l2 l3 hEq hN' htail hB
    exact ⟨hAdone, x, y, by rw [hlog]; exact hsplit, hx, hy⟩

/-- C5 witness: a concrete five-step run — enqueue `jobA` while idle, emit
its two writes, finish, enqueue `jobB`, emit `jobB`'s first write. -/
theorem fifo_single_drain_witness :
    witnessState.drains ≤ 1 ∧
    jobA ∈ witnessState.done ∧
    ∃ x y, witnessState.log = x ++ (taggedTrace jobA ++ y) ∧
      (∀ e ∈ x, e.1 ≠ jobId jobB) ∧ (∀ e ∈ y, e.1 ≠ jobId jobA) := by
  have h0 : Reachable initState := .init
  have h1 := Reachable.step h0
    (Step.enqueueIdle initState jobA jobA [] rfl rfl)
  have h2 := Reachable.step h1
    (Step.emit _ jobA (updateStatusWrite .transcribing none)
      [updateStatusWrite .failed (some "boom")] rfl)
  have h3 := Reachable.step h2
    (Step.emit _ jobA (updateStatusWrite .failed (some "boom")) [] rfl)
  have h4 := Reachable.step h3 (Step.finishIdle _ jobA rfl rfl)
  have h5 := Reachable.step h4
    (Step.enqueueIdle _ jobB jobB [] rfl rfl)
  have h6 := Reachable.step h5
    (Step.emit _ jobB (updateStatusWrite .transcribing none)
      [updateStatusWrite .failed (some "boom")] rfl)
  have hr : Reachable witnessState := h6
  have h := fifo_single_drain witnessState hr
  have hfifo := h.2 jobA jobB [] [] [] rfl (by decide)
    ⟨(2, updateStatusWrite .transcribing none), by decide, rfl⟩
  exact ⟨h.1, hfifo.1, hfifo.2⟩

end KingHacks
